import Mathlib

/-!
# Verification of the findlibs library-resolution pipeline

Shallow embedding of `findlibs/__init__.py` (version 0.1.2).  External
collaborators (filesystem, environment, the Python import machinery,
`ctypes.util.find_library`, the config parser) are modelled as fields of an
`Env` record; every function of the module is translated directly from the
source.  Nontermination of the (fuel-free, unguarded) Python recursion in
`_transitive_preload_deps` is rendered with a fuel parameter: a result of
`none` for every fuel models divergence (Python's `RecursionError`).
-/

/-- A Python module object as seen by findlibs: `dir` models
`str(Path(module.__file__).parent)` (the install directory of the module) and
`deps` models the optional `findlibs_dependencies` attribute (`none` when
`hasattr(module, "findlibs_dependencies")` is false). -/
structure PyModule where
  dir : String
  deps : Option (List String)
deriving DecidableEq

/-- The external state read by findlibs during one call:
* `platform` — `sys.platform`;
* `home` — the user's home directory (target of `~` expansion);
* `sysPrefixDir` — `sys.prefix`;
* `vars` — `os.environ` (`none` = variable absent);
* `fs` — `os.path.exists` / `Path.exists`;
* `isDir` — `Path.is_dir` (false for a plain file and for a missing path);
* `listdir` — `os.listdir`;
* `importable` — `importlib.import_module` (`none` = `ImportError`);
* `findLibrary` — `ctypes.util.find_library` (`none` = `None`);
* `readConfig` — the configparser read of a config file: `none` when the
  file has no `Paths` section, otherwise the list of keys of that section. -/
structure Env where
  platform : String
  home : String
  sysPrefixDir : String
  vars : String → Option String
  fs : String → Bool
  isDir : String → Bool
  listdir : String → List String
  importable : String → Option PyModule
  findLibrary : String → Option String
  readConfig : String → Option (List String)

/-- Python truthiness of an `Optional[str]`: `None` and `""` are falsy. -/
def truthy : Option String → Bool
  | none => false
  | some s => s != ""

/-- Python `a or b` on `Optional[str]` values. -/
def pyOr (a b : Option String) : Option String :=
  if truthy a then a else b

/-- Python `a or b` where `b` is a plain string (used for the
`pkg_name or f"{lib_name}lib"` default). -/
def pyStrOr (a : Option String) (b : String) : String :=
  match a with
  | none => b
  | some s => if s = "" then b else s

/-- `str.startswith`, via the character list (kernel-computable, unlike the
byte-position-based core `String.startsWith`). -/
def strStartsWith (s pre : String) : Bool :=
  pre.data.isPrefixOf s.data

/-- `str.endswith`, via the character list. -/
def strEndsWith (s suf : String) : Bool :=
  suf.data.isSuffixOf s.data

/-- Python slicing `s[n:]` (by characters). -/
def strDrop (s : String) (n : Nat) : String :=
  ⟨s.data.drop n⟩

/-- Python slicing `s[:-n]` (by characters). -/
def strDropRight (s : String) (n : Nat) : String :=
  ⟨s.data.take (s.data.length - n)⟩

/-- `str.upper`, via the character list. -/
def strToUpper (s : String) : String :=
  ⟨s.data.map Char.toUpper⟩

/-- `str.lower`, via the character list. -/
def strToLower (s : String) : String :=
  ⟨s.data.map Char.toLower⟩

/-- `str.split(":")`: left-to-right split on every colon, keeping empty
segments; `"".split(":") == [""]`. -/
def splitColonAux : List Char → List Char → List String
  | [], acc => [⟨acc.reverse⟩]
  | c :: t, acc =>
    if c == ':' then ⟨acc.reverse⟩ :: splitColonAux t []
    else splitColonAux t (c :: acc)

/-- `str.split(":")` on a string. -/
def splitColon (s : String) : List String :=
  splitColonAux s.data []

/-- `str.replace("$HOME", "~")`: left-to-right, non-overlapping. -/
def replaceHomeAux : List Char → List Char
  | '$' :: 'H' :: 'O' :: 'M' :: 'E' :: t => '~' :: replaceHomeAux t
  | c :: t => c :: replaceHomeAux t
  | [] => []

/-- `p.replace("$HOME", "~")` on a string. -/
def replaceHome (s : String) : String :=
  ⟨replaceHomeAux s.data⟩

/-- Models `os.path.expanduser` / `pathlib.Path.expanduser` on POSIX for the
forms findlibs exercises: a path equal to `~` or starting with `~/` has the
tilde replaced by the user's home directory; any other path is returned
unchanged (the `~user` form is outside the modelled environment). -/
def expanduser (home s : String) : String :=
  if s = "~" then home
  else if strStartsWith s "~/" then home ++ strDrop s 1
  else s

/-- Models `os.path.join`/`pathlib` two-component join on POSIX: an absolute
second component discards the first, an empty first component yields the
second, otherwise a single separator is inserted. -/
def osJoin (a b : String) : String :=
  if strStartsWith b "/" then b
  else if a = "" then b
  else if strEndsWith a "/" then a ++ b
  else a ++ "/" ++ b

/-- Models `PurePosixPath.is_absolute`: the path starts with `/`. -/
def isAbsolute (s : String) : Bool :=
  match s.data with
  | [] => false
  | c :: _ => c == '/'

/-- `EXTENSIONS`: the platform shared-library extension, a `defaultdict`
defaulting to `".so"` with `darwin` and `win32` overrides. -/
def EXTENSIONS (platform : String) : String :=
  if platform = "darwin" then ".dylib"
  else if platform = "win32" then ".dll"
  else ".so"

/-- Helper for the default shared-object regex `^.*\.so(.[0-9]+)?$`: the tail
of a match after `.so`, namely empty, or one arbitrary character followed by
one or more digits (the `.` of the pattern is unescaped, so it matches any
character). -/
def isVerTail : List Char → Bool
  | [] => true
  | _ :: ds => !ds.isEmpty && ds.all (·.isDigit)

/-- Scans for a position where `.so` occurs such that the rest of the string
is a version tail, i.e. decides `re.match(r"^.*\.so(.[0-9]+)?$", ·)`. -/
def soMatchAux : List Char → Bool
  | [] => false
  | c :: t =>
    ((c == '.') && (match t with
      | 's' :: 'o' :: rest => isVerTail rest
      | _ => false)) || soMatchAux t

/-- `EXTENSIONS_RE`: decides whether a file name matches the platform's
shared-object pattern (`re.match(EXTENSIONS_RE[sys.platform], lib)`). -/
def extMatchesRe (platform : String) (name : String) : Bool :=
  if platform = "darwin" then strEndsWith name ".dylib"
  else if platform = "win32" then strEndsWith name ".dll"
  else soMatchAux name.data

/-- `_single_preload_deps path`: the global loads performed on one directory,
in `os.listdir` order — every entry matching the platform pattern, loaded as
`f"{path}/{lib}"`. -/
def dirLoads (env : Env) (path : String) : List String :=
  ((env.listdir path).filter (extMatchesRe env.platform)).map (fun lib => path ++ "/" ++ lib)

/-- The two candidate preload directories of a module, `lib` then `lib64`
beneath `Path(module.__file__).parent`, filtered by `os.path.exists`. -/
def moduleLibDirs (env : Env) (m : PyModule) : List String :=
  ([m.dir ++ "/lib", m.dir ++ "/lib64"]).filter env.fs

/-- All global loads contributed by one module's own `lib`/`lib64`
directories (the `_single_preload_deps` calls made for it). -/
def moduleLibLoads (env : Env) (m : PyModule) : List String :=
  (moduleLibDirs env m).map (dirLoads env) |>.flatten

/-- The loop body of `_transitive_preload_deps` over the declared dependency
names, parametrised by the recursive call `rec` (one fuel level lower).
For each name: an `ImportError` is swallowed (warning only); otherwise the
dependency's own transitive loads come first, then its `lib`/`lib64` loads,
then the loads of the remaining names.  `none` propagates divergence. -/
def preloadListAux (env : Env) (rec : PyModule → Option (List String)) :
    List String → Option (List String)
  | [] => some []
  | n :: rest =>
    match env.importable n with
    | none => preloadListAux env rec rest
    | some dep =>
      match rec dep, preloadListAux env rec rest with
      | some dtr, some rtr => some (dtr ++ moduleLibLoads env dep ++ rtr)
      | _, _ => none

/-- `_transitive_preload_deps module`, with fuel: returns the list of global
loads performed, or `none` when the recursion does not terminate within
`fuel` nested calls.  The Python source recurses unconditionally on every
declared dependency, with no visited set. -/
def transitivePreloadDeps (env : Env) : Nat → PyModule → Option (List String)
  | 0 => fun _ => none
  | fuel + 1 => fun m =>
    match m.deps with
    | none => some []
    | some names => preloadListAux env (transitivePreloadDeps env fuel) names

/-- The outcome of running one source strategy (or of `find` itself):
divergence, a raised exception, or a normal return carrying the optional
result together with the list of global-load side effects performed. -/
inductive StratRes where
  | div : StratRes
  | err : String → StratRes
  | ok : Option String → List String → StratRes
deriving DecidableEq

/-- First candidate path that exists, the shared shape of the
`for ...: if os.path.exists(...): return ...` loops. -/
def firstExisting (env : Env) (cands : List String) : Option String :=
  cands.find? env.fs

/-- The two wheel-library candidates of `_find_in_package`:
`Path(module.__file__).parent / "lib" / lib_name` then the `lib64` twin. -/
def packageCandidates (m : PyModule) (libName : String) : List String :=
  [osJoin (osJoin m.dir "lib") libName, osJoin (osJoin m.dir "lib64") libName]

/-- `_find_in_package(lib_name, pkg_name)` as called from `find` (two
positional arguments, so `preload_deps` defaults to
`sys.platform != "darwin"`).  An unimportable package is a miss; when
preloading is on, the transitive preload runs before the candidate probe and
its loads are the strategy's side effects. -/
def findInPackageRes (env : Env) (fuel : Nat) (libName pkgName : String) : StratRes :=
  match env.importable pkgName with
  | none => .ok none []
  | some m =>
    if env.platform = "darwin" then
      .ok (firstExisting env (packageCandidates m libName)) []
    else
      match transitivePreloadDeps env fuel m with
      | none => .div
      | some tr => .ok (firstExisting env (packageCandidates m libName)) tr

/-- Probe `root/lib/<name>` then `root/lib64/<name>` for each root in order,
the shared shape of the PYTHON, CONFIG_PATHS and SYS strategies. -/
def probeLibDirs (env : Env) (libName : String) (roots : List String) : Option String :=
  firstExisting env
    ((roots.map (fun root =>
      [osJoin (osJoin root "lib") libName, osJoin (osJoin root "lib64") libName])).flatten)

/-- `_find_in_python`: roots are `sys.prefix`, then `$CONDA_PREFIX` when that
variable is present. -/
def findInPython (env : Env) (libName _pkgName : String) : Option String :=
  probeLibDirs env libName
    ([env.sysPrefixDir] ++ (match env.vars "CONDA_PREFIX" with
      | some v => [v]
      | none => []))

/-- The candidate environment-variable names of `_find_in_home`:
`{UPPER,lower}_{HOME,DIR}` over the package name, and when the package name
ends with `"lib"` additionally the same forms with the last three characters
stripped. -/
def homeEnvCandidates (pkgName : String) : List String :=
  (([strToUpper pkgName, strToLower pkgName] ++
    (if strEndsWith pkgName "lib" then
      [strDropRight (strToUpper pkgName) 3, strDropRight (strToLower pkgName) 3]
    else [])).map (fun x => [x ++ "_HOME", x ++ "_DIR"])).flatten

/-- The per-variable probe of `_find_in_home`: `home/lib/<name>` then
`home/lib64/<name>` under the (already `~`-expanded) variable value. -/
def homeProbe (env : Env) (libName home : String) : Option String :=
  firstExisting env [osJoin (osJoin home "lib") libName, osJoin (osJoin home "lib64") libName]

/-- The candidate loop of `_find_in_home`: a variable absent from the
environment is skipped; for a present one its value is `~`-expanded and
probed, moving on when nothing is found. -/
def findInHomeAux (env : Env) (libName : String) : List String → Option String
  | [] => none
  | e :: rest =>
    match env.vars e with
    | none => findInHomeAux env libName rest
    | some v =>
      match homeProbe env libName (expanduser env.home v) with
      | some r => some r
      | none => findInHomeAux env libName rest

/-- `_find_in_home(lib_name, pkg_name)`. -/
def findInHome (env : Env) (libName pkgName : String) : Option String :=
  findInHomeAux env libName (homeEnvCandidates pkgName)

/-- The two fixed config-file locations of `_get_paths_from_config`,
`~`-expanded and filtered by existence. -/
def configLocations (env : Env) : List String :=
  (["~/.config/findlibs/findlibs.conf", "~/.findlibs"].map (expanduser env.home)).filter env.fs

/-- `_get_paths_from_config`: no config file yields the empty list; more than
one is a `ValueError`; otherwise the keys of the `Paths` section (absent
section: empty) are `$HOME`-substituted, `~`-expanded and deduplicated (the
source builds a Python set); a remaining relative entry raises, then an
entry that is not a directory raises; otherwise the paths are returned. -/
def getPathsFromConfig (env : Env) : Except String (List String) :=
  match configLocations env with
  | [] => .ok []
  | [loc] =>
    match env.readConfig loc with
    | none => .ok []
    | some keys =>
      let paths := (keys.map (fun p => expanduser env.home (replaceHome p))).dedup
      let relPaths := paths.filter (fun p => !(isAbsolute p))
      if !relPaths.isEmpty then
        .error "Dont use relative paths in the config file"
      else
        let files := paths.filter (fun p => !(env.isDir p))
        if !files.isEmpty then
          .error "Dont put files in the config file"
        else
          .ok paths
  | _ :: _ :: _ => .error "There are multiple config files! Delete all but one"

/-- `_find_in_ld_path`: for `LD_LIBRARY_PATH` then `DYLD_LIBRARY_PATH`, the
variable's value (defaulting to `""`) is split on `:` and every segment is
joined directly with the file name (note `"".split(":") == [""]`, so an
absent variable still contributes one empty segment). -/
def findInLdPath (env : Env) (libName _pkgName : String) : Option String :=
  firstExisting env
    (((["LD_LIBRARY_PATH", "DYLD_LIBRARY_PATH"].map
      (fun v => splitColon ((env.vars v).getD ""))).flatten).map
        (fun home => osJoin home libName))

/-- The fixed system roots of `_find_in_sys`. -/
def sysRoots (env : Env) : List String :=
  ["/", "/usr/", "/usr/local/", "/opt/", "/opt/homebrew/", expanduser env.home "~/.local"]

/-- `_find_in_sys`. -/
def findInSys (env : Env) (libName _pkgName : String) : Option String :=
  probeLibDirs env libName (sysRoots env)

/-- Python `str.removeprefix("lib")`: drops a leading `lib` when present. -/
def stripLib (s : String) : String :=
  if strStartsWith s "lib" then strDrop s 3 else s

/-- `_find_in_ctypes_util`: `ctypes.util.find_library(lib_name) or
ctypes.util.find_library(lib_name.removeprefix("lib"))`. -/
def findInCtypesUtil (env : Env) (libName : String) : Option String :=
  pyOr (env.findLibrary libName) (env.findLibrary (stripLib libName))

/-- The seven source strategies, by id. -/
inductive Source where
  | PACKAGE | PYTHON | HOME | CONFIG_PATHS | LD_PATH | SYS | CTYPES_UTIL
deriving DecidableEq

/-- The id string of a source, as used in its disable switch. -/
def sourceName : Source → String
  | .PACKAGE => "PACKAGE"
  | .PYTHON => "PYTHON"
  | .HOME => "HOME"
  | .CONFIG_PATHS => "CONFIG_PATHS"
  | .LD_PATH => "LD_PATH"
  | .SYS => "SYS"
  | .CTYPES_UTIL => "CTYPES_UTIL"

/-- The fixed strategy order of `find`'s `sources` tuple. -/
def sourcesOrder : List Source :=
  [.PACKAGE, .PYTHON, .HOME, .CONFIG_PATHS, .LD_PATH, .SYS, .CTYPES_UTIL]

/-- `os.environ.get(f"FINDLIBS_DISABLE_{source_name}", None) != "yes"`. -/
def sourceEnabled (env : Env) (s : Source) : Bool :=
  env.vars ("FINDLIBS_DISABLE_" ++ sourceName s) != some "yes"

/-- `sources_filtered`: the strategies that remain after the disable
switches, in the fixed order. -/
def enabledSources (env : Env) : List Source :=
  sourcesOrder.filter (sourceEnabled env)

/-- Run one source strategy on the platform-qualified file name and the
package name.  Only PACKAGE has side effects (and can diverge); only
CONFIG_PATHS can raise. -/
def runSource (env : Env) (fuel : Nat) (s : Source) (libName pkgName : String) : StratRes :=
  match s with
  | .PACKAGE => findInPackageRes env fuel libName pkgName
  | .PYTHON => .ok (findInPython env libName pkgName) []
  | .HOME => .ok (findInHome env libName pkgName) []
  | .CONFIG_PATHS =>
    match getPathsFromConfig env with
    | .error e => .err e
    | .ok roots => .ok (probeLibDirs env libName roots) []
  | .LD_PATH => .ok (findInLdPath env libName pkgName) []
  | .SYS => .ok (findInSys env libName pkgName) []
  | .CTYPES_UTIL => .ok (findInCtypesUtil env libName) []

/-- The `for source in sources_filtered` loop of `find`: the first truthy
result is returned (`if result := source(lib_name, pkg_name)`), side effects
accumulate across the consulted strategies, and exhaustion yields `None`. -/
def findLoop (env : Env) (fuel : Nat) (libName pkgName : String) :
    List Source → List String → StratRes
  | [], acc => .ok none acc
  | s :: rest, acc =>
    match runSource env fuel s libName pkgName with
    | .div => .div
    | .err e => .err e
    | .ok r tr => if truthy r then .ok r (acc ++ tr) else findLoop env fuel libName pkgName rest (acc ++ tr)

/-- `"lib{}{}".format(lib_name, extension)`. -/
def libFileName (env : Env) (libName : String) : String :=
  "lib" ++ libName ++ EXTENSIONS env.platform

/-- `find(lib_name, pkg_name)`: default the package name to
`f"{lib_name}lib"`, build the platform-qualified file name, and run the
enabled strategies in order. -/
def find (env : Env) (fuel : Nat) (libName : String) (pkgName : Option String) : StratRes :=
  findLoop env fuel (libFileName env libName) (pyStrOr pkgName (libName ++ "lib"))
    (enabledSources env) []

/-- The outcome of `load`: divergence, a raised error, or the full ordered
list of global loads performed (the preload loads followed by the load of
the resolved path itself). -/
inductive LoadRes where
  | div : LoadRes
  | err : String → LoadRes
  | ok : List String → LoadRes
deriving DecidableEq

/-- `load(lib_name, pkg_name)`: find, raise `ValueError` on a falsy result,
otherwise globally load the found path (after whatever loads `find` already
performed). -/
def load (env : Env) (fuel : Nat) (libName : String) (pkgName : Option String) : LoadRes :=
  match find env fuel libName pkgName with
  | .div => .div
  | .err e => .err e
  | .ok none _ =>
    .err ("unable to find " ++
      (match pkgName with
        | some p => if p = "" then "" else p ++ "."
        | none => "") ++ libName)
  | .ok (some p) tr => .ok (tr ++ [p])

/-- A strategy outcome that `find`'s walrus test treats as a miss: a normal
return whose result is falsy. -/
def StratRes.isMiss : StratRes → Bool
  | .ok r _ => !truthy r
  | _ => false

/-! ## General lemmas about the resolution loop -/

theorem isMiss_elim {x : StratRes} (h : x.isMiss = true) :
    ∃ r tr, x = .ok r tr ∧ truthy r = false := by
  cases x with
  | div => simp [StratRes.isMiss] at h
  | err e => simp [StratRes.isMiss] at h
  | ok r tr =>
    refine ⟨r, tr, rfl, ?_⟩
    simpa [StratRes.isMiss] using h

theorem findLoop_first_hit (env : Env) (fuel : Nat) (fn pn : String) :
    ∀ (k : Nat) (L : List Source) (acc : List String) (hk : k < L.length),
    ((L.take k).all (fun s => (runSource env fuel s fn pn).isMiss) = true) →
    ∀ r tr, runSource env fuel (L.get ⟨k, hk⟩) fn pn = .ok (some r) tr → r ≠ "" →
    ∃ T, findLoop env fuel fn pn L acc = .ok (some r) T := by
  intro k
  induction k with
  | zero =>
    intro L acc hk hmiss r tr hhit hr
    match L, hk with
    | s :: rest, _ =>
      refine ⟨acc ++ tr, ?_⟩
      have hs : runSource env fuel s fn pn = .ok (some r) tr := hhit
      simp only [findLoop, hs]
      have : truthy (some r) = true := by
        simp [truthy, hr]
      simp [this]
  | succ k ih =>
    intro L acc hk hmiss r tr hhit hr
    match L, hk with
    | s :: rest, hk =>
      have hk' : k < rest.length := Nat.lt_of_succ_lt_succ hk
      have hmiss0 : (runSource env fuel s fn pn).isMiss = true := by
        simp only [List.take, List.all_cons, Bool.and_eq_true] at hmiss
        exact hmiss.1
      have hmiss' : ((rest.take k).all (fun s => (runSource env fuel s fn pn).isMiss) = true) := by
        simp only [List.take, List.all_cons, Bool.and_eq_true] at hmiss
        exact hmiss.2
      obtain ⟨r0, t0, hx, ht⟩ := isMiss_elim hmiss0
      have hget : (s :: rest).get ⟨k + 1, hk⟩ = rest.get ⟨k, hk'⟩ := rfl
      rw [hget] at hhit
      obtain ⟨T, hT⟩ := ih rest (acc ++ t0) hk' hmiss' r tr hhit hr
      refine ⟨T, ?_⟩
      simp only [findLoop, hx, ht]
      simpa using hT

theorem findLoop_all_miss (env : Env) (fuel : Nat) (fn pn : String) :
    ∀ (L : List Source) (acc : List String),
    (L.all (fun s => (runSource env fuel s fn pn).isMiss) = true) →
    ∃ T, findLoop env fuel fn pn L acc = .ok none T := by
  intro L
  induction L with
  | nil => intro acc _; exact ⟨acc, rfl⟩
  | cons s rest ih =>
    intro acc hall
    simp only [List.all_cons, Bool.and_eq_true] at hall
    obtain ⟨r0, t0, hx, ht⟩ := isMiss_elim hall.1
    obtain ⟨T, hT⟩ := ih (acc ++ t0) hall.2
    refine ⟨T, ?_⟩
    simp only [findLoop, hx, ht]
    simpa using hT

/-! ## Concrete environments used by the witnesses -/

/-- An environment where the only file in existence is `/usr/lib/libfoo.so`:
every strategy before SYS misses, SYS hits. -/
def envSys : Env :=
  { platform := "linux", home := "/home/u", sysPrefixDir := "/py",
    vars := fun _ => none,
    fs := fun p => p == "/usr/lib/libfoo.so",
    isDir := fun _ => false,
    listdir := fun _ => [],
    importable := fun _ => none,
    findLibrary := fun _ => none,
    readConfig := fun _ => none }

/-- `envSys` with the SYS strategy disabled through its switch. -/
def envSysDis : Env :=
  { envSys with vars := fun v => if v = "FINDLIBS_DISABLE_SYS" then some "yes" else none }

/-! ## C1: fixed order, first enabled hit wins -/

/-- C1: `find` consults the seven strategies in the fixed order PACKAGE,
PYTHON, HOME, CONFIG_PATHS, LD_PATH, SYS, CTYPES_UTIL; when every enabled
strategy before position `k` misses and the enabled strategy at position `k`
yields a non-empty result `r`, `find` returns `r` no matter what later
strategies would return; and when every enabled strategy misses, `find`
returns `None`. -/
theorem find_consults_sources_in_order :
    sourcesOrder = [.PACKAGE, .PYTHON, .HOME, .CONFIG_PATHS, .LD_PATH, .SYS, .CTYPES_UTIL] ∧
    (∀ (env : Env) (fuel : Nat) (lib : String) (pkg : Option String) (k : Nat)
      (r : String) (tr : List String) (hk : k < (enabledSources env).length),
      (((enabledSources env).take k).all (fun s =>
        (runSource env fuel s (libFileName env lib) (pyStrOr pkg (lib ++ "lib"))).isMiss) = true) →
      runSource env fuel ((enabledSources env).get ⟨k, hk⟩) (libFileName env lib)
        (pyStrOr pkg (lib ++ "lib")) = .ok (some r) tr →
      r ≠ "" →
      ∃ T, find env fuel lib pkg = .ok (some r) T) ∧
    (∀ (env : Env) (fuel : Nat) (lib : String) (pkg : Option String),
      ((enabledSources env).all (fun s =>
        (runSource env fuel s (libFileName env lib) (pyStrOr pkg (lib ++ "lib"))).isMiss) = true) →
      ∃ T, find env fuel lib pkg = .ok none T) := by
  refine ⟨rfl, ?_, ?_⟩
  · intro env fuel lib pkg k r tr hk hmiss hhit hr
    exact findLoop_first_hit env fuel (libFileName env lib) (pyStrOr pkg (lib ++ "lib"))
      k (enabledSources env) [] hk hmiss r tr hhit hr
  · intro env fuel lib pkg hall
    exact findLoop_all_miss env fuel (libFileName env lib) (pyStrOr pkg (lib ++ "lib"))
      (enabledSources env) [] hall

/-- Witness for C1: with a file only at `/usr/lib/libfoo.so`, the five
strategies before SYS miss, SYS (position 5) hits, and `find` returns that
path. -/
theorem find_consults_sources_in_order_witness :
    ∃ T, find envSys 1 "foo" none = .ok (some "/usr/lib/libfoo.so") T :=
  find_consults_sources_in_order.2.1 envSys 1 "foo" none 5 "/usr/lib/libfoo.so" []
    (by decide) (by decide) (by decide) (by decide)

/-! ## C2: the FINDLIBS_DISABLE_<ID> switches -/

/-- C2: a source whose `FINDLIBS_DISABLE_<ID>` variable is exactly `"yes"`
is removed from the consulted strategy list entirely; any other value, or
the variable's absence, leaves it in the list; and when a strategy is
disabled, `find` returns `None` whenever every enabled strategy misses,
independently of what the disabled strategy would have returned. -/
theorem disable_switch_semantics :
    (∀ (env : Env) (s : Source),
      (env.vars ("FINDLIBS_DISABLE_" ++ sourceName s) = some "yes" →
        s ∉ enabledSources env) ∧
      (env.vars ("FINDLIBS_DISABLE_" ++ sourceName s) ≠ some "yes" →
        s ∈ sourcesOrder → s ∈ enabledSources env)) ∧
    (∀ (env : Env) (fuel : Nat) (lib : String) (pkg : Option String) (s : Source),
      env.vars ("FINDLIBS_DISABLE_" ++ sourceName s) = some "yes" →
      ((enabledSources env).all (fun t =>
        (runSource env fuel t (libFileName env lib) (pyStrOr pkg (lib ++ "lib"))).isMiss) = true) →
      ∃ T, find env fuel lib pkg = .ok none T) := by
  refine ⟨?_, ?_⟩
  · intro env s
    constructor
    · intro hyes hmem
      rw [enabledSources, List.mem_filter] at hmem
      rw [sourceEnabled, hyes] at hmem
      simp at hmem
    · intro hne hmem
      rw [enabledSources, List.mem_filter]
      refine ⟨hmem, ?_⟩
      rw [sourceEnabled]
      simpa [bne_iff_ne] using hne
  · intro env fuel lib pkg s _ hall
    exact findLoop_all_miss env fuel (libFileName env lib) (pyStrOr pkg (lib ++ "lib"))
      (enabledSources env) [] hall

/-- Witness for C2: a file at `/usr/lib/libfoo.so` is discoverable only via
SYS; with `FINDLIBS_DISABLE_SYS=yes` every remaining enabled strategy
misses and `find` returns `None`, although SYS itself would have hit. -/
theorem disable_switch_semantics_witness :
    runSource envSysDis 1 .SYS "libfoo.so" "foolib" = .ok (some "/usr/lib/libfoo.so") [] ∧
    ∃ T, find envSysDis 1 "foo" none = .ok none T :=
  ⟨by decide,
    disable_switch_semantics.2 envSysDis 1 "foo" none .SYS (by decide) (by decide)⟩

/-! ## C4: the CTYPES_UTIL fallback and its single retry -/

/-- Environment for the C4 witness: the platform cache only answers for the
`lib`-stripped name. -/
def envCt : Env :=
  { platform := "linux", home := "/home/u", sysPrefixDir := "/py",
    vars := fun _ => none,
    fs := fun _ => false,
    isDir := fun _ => false,
    listdir := fun _ => [],
    importable := fun _ => none,
    findLibrary := fun n => if n = "m.so" then some "libm.so.6" else none,
    readConfig := fun _ => none }

/-- C4: the CTYPES_UTIL strategy first queries `ctypes.util.find_library`
with the library name it is given; when that attempt yields a falsy result
it retries exactly once with a literal `lib` prefix stripped (stripping only
when present); and in `find`'s pipeline, its answer is whatever the query
chain produced, with no existence check and no side effects. -/
theorem ctypes_util_queries_and_retries :
    (∀ (env : Env) (n : String), truthy (env.findLibrary n) = true →
      findInCtypesUtil env n = env.findLibrary n) ∧
    (∀ (env : Env) (n : String), truthy (env.findLibrary n) = false →
      findInCtypesUtil env n = env.findLibrary (stripLib n)) ∧
    (∀ n : String, strStartsWith n "lib" = true → stripLib n = strDrop n 3) ∧
    (∀ n : String, strStartsWith n "lib" = false → stripLib n = n) ∧
    (∀ (env : Env) (fuel : Nat) (n pn : String),
      runSource env fuel .CTYPES_UTIL n pn = .ok (findInCtypesUtil env n) []) := by
  refine ⟨?_, ?_, ?_, ?_, ?_⟩
  · intro env n h
    simp [findInCtypesUtil, pyOr, h]
  · intro env n h
    simp [findInCtypesUtil, pyOr, h]
  · intro n h
    simp [stripLib, h]
  · intro n h
    simp [stripLib, h]
  · intro env fuel n pn
    rfl

/-- Witness for C4: for the file name `libm.so` the first query misses, the
retry is made with `m.so` (the `lib` prefix stripped) and its answer
`libm.so.6` is the strategy's result. -/
theorem ctypes_util_queries_and_retries_witness :
    findInCtypesUtil envCt "libm.so" = envCt.findLibrary (stripLib "libm.so") ∧
    findInCtypesUtil envCt "libm.so" = some "libm.so.6" :=
  ⟨ctypes_util_queries_and_retries.2.1 envCt "libm.so" (by decide), by decide⟩

/-! ## C9: the HOME strategy's candidate variables and probe order -/

/-- Environment for the C9 witness: `FOO_HOME=~/opt` and a library at
`/home/u/opt/lib/libfoo.so`. -/
def envHome : Env :=
  { platform := "linux", home := "/home/u", sysPrefixDir := "/py",
    vars := fun v => if v = "FOO_HOME" then some "~/opt" else none,
    fs := fun p => p == "/home/u/opt/lib/libfoo.so",
    isDir := fun _ => false,
    listdir := fun _ => [],
    importable := fun _ => none,
    findLibrary := fun _ => none,
    readConfig := fun _ => none }

/-- C9: the HOME strategy derives its candidate variables as
`{UPPER,lower}_{HOME,DIR}` over the package name, doubled to eight by the
suffix-stripped forms when the package name ends in `lib`; for package name
`Foo` the four claimed candidates are among them; a candidate absent from
the environment is skipped; and a present candidate's value is `~`-expanded
and probed under `lib` before `lib64`. -/
theorem home_candidates_and_probe_order :
    (∀ pkgName : String, strEndsWith pkgName "lib" = false →
      homeEnvCandidates pkgName =
        [strToUpper pkgName ++ "_HOME", strToUpper pkgName ++ "_DIR",
         strToLower pkgName ++ "_HOME", strToLower pkgName ++ "_DIR"]) ∧
    (∀ pkgName : String, strEndsWith pkgName "lib" = true →
      homeEnvCandidates pkgName =
        [strToUpper pkgName ++ "_HOME", strToUpper pkgName ++ "_DIR",
         strToLower pkgName ++ "_HOME", strToLower pkgName ++ "_DIR",
         strDropRight (strToUpper pkgName) 3 ++ "_HOME",
         strDropRight (strToUpper pkgName) 3 ++ "_DIR",
         strDropRight (strToLower pkgName) 3 ++ "_HOME",
         strDropRight (strToLower pkgName) 3 ++ "_DIR"] ∧
      (homeEnvCandidates pkgName).length = 8) ∧
    ("FOO_HOME" ∈ homeEnvCandidates "Foo" ∧ "foo_HOME" ∈ homeEnvCandidates "Foo" ∧
     "FOO_DIR" ∈ homeEnvCandidates "Foo" ∧ "foo_DIR" ∈ homeEnvCandidates "Foo") ∧
    (∀ (env : Env) (fn e : String) (rest : List String),
      env.vars e = none →
      findInHomeAux env fn (e :: rest) = findInHomeAux env fn rest) ∧
    (∀ (env : Env) (fn v : String),
      env.fs (osJoin (osJoin (expanduser env.home v) "lib") fn) = true →
      homeProbe env fn (expanduser env.home v) =
        some (osJoin (osJoin (expanduser env.home v) "lib") fn)) ∧
    (∀ (env : Env) (fn v : String),
      env.fs (osJoin (osJoin (expanduser env.home v) "lib") fn) = false →
      homeProbe env fn (expanduser env.home v) =
        (if env.fs (osJoin (osJoin (expanduser env.home v) "lib64") fn) then
          some (osJoin (osJoin (expanduser env.home v) "lib64") fn) else none)) ∧
    (∀ (env : Env) (fn e : String) (rest : List String) (v : String),
      env.vars e = some v →
      findInHomeAux env fn (e :: rest) =
        (match homeProbe env fn (expanduser env.home v) with
          | some r => some r
          | none => findInHomeAux env fn rest)) := by
  refine ⟨?_, ?_, ?_, ?_, ?_, ?_, ?_⟩
  · intro pkgName h
    simp [homeEnvCandidates, h]
  · intro pkgName h
    constructor
    · simp [homeEnvCandidates, h]
    · simp [homeEnvCandidates, h]
  · refine ⟨?_, ?_, ?_, ?_⟩ <;> decide
  · intro env fn e rest h
    simp [findInHomeAux, h]
  · intro env fn v h
    simp [homeProbe, firstExisting, List.find?, h]
  · intro env fn v h
    by_cases h64 : env.fs (osJoin (osJoin (expanduser env.home v) "lib64") fn) = true
    · simp [homeProbe, firstExisting, List.find?, h, h64]
    · simp at h64
      simp [homeProbe, firstExisting, List.find?, h, h64]
  · intro env fn e rest v h
    simp [findInHomeAux, h]

/-- Witness for C9: `Foo` does not end in `lib`, so its candidates are the
four claimed forms; and with `FOO_HOME=~/opt` and a file at
`/home/u/opt/lib/libfoo.so` the probe `~`-expands the value and finds the
file under `lib`. -/
theorem home_candidates_and_probe_order_witness :
    homeEnvCandidates "Foo" = ["FOO_HOME", "FOO_DIR", "foo_HOME", "foo_DIR"] ∧
    homeProbe envHome "libfoo.so" (expanduser envHome.home "~/opt") =
      some "/home/u/opt/lib/libfoo.so" := by
  constructor
  · have h := home_candidates_and_probe_order.1 "Foo" (by decide)
    rw [h]
    decide
  · have h := home_candidates_and_probe_order.2.2.2.2.1 envHome "libfoo.so" "~/opt" (by decide)
    rw [h]
    decide

/-! ## C10: the LD_PATH strategy with both variables unset -/

/-- C10: with `LD_LIBRARY_PATH` and `DYLD_LIBRARY_PATH` both absent, each
variable still contributes the single empty segment `""`, the file name is
joined directly onto it, and a file `lib<name><extension>` reachable at that
relative name is returned as-is — a relative, not absolute, path. -/
theorem ld_path_probes_empty_segment :
    ∀ (env : Env) (n pn : String),
      env.vars "LD_LIBRARY_PATH" = none →
      env.vars "DYLD_LIBRARY_PATH" = none →
      env.fs (libFileName env n) = true →
      findInLdPath env (libFileName env n) pn = some (libFileName env n) ∧
      isAbsolute (libFileName env n) = false := by
  intro env n pn h1 h2 hfs
  have hjoin : osJoin "" (libFileName env n) = libFileName env n := by
    unfold osJoin
    by_cases hs : strStartsWith (libFileName env n) "/" = true
    · simp [hs]
    · simp at hs
      simp [hs]
  constructor
  · simp only [findInLdPath, h1, h2, List.map_cons, List.map_nil, Option.getD]
    show firstExisting env ((([splitColon "", splitColon ""]).flatten).map
      (fun home => osJoin home (libFileName env n))) = _
    have hsplit : splitColon "" = [""] := rfl
    rw [hsplit]
    simp only [List.flatten, List.append_nil, List.map_cons, List.map_nil, List.cons_append,
      List.nil_append, hjoin]
    simp [firstExisting, List.find?, hfs]
  · have hdata : (libFileName env n).data =
        'l' :: 'i' :: 'b' :: (n.data ++ (EXTENSIONS env.platform).data) := by
      simp [libFileName, String.data_append]
    simp [isAbsolute, hdata]

/-! ## C3: validation in the config loader -/

/-- Environment for the C3 witness, both-files case: the two candidate
config files exist simultaneously. -/
def envCfgBoth : Env :=
  { platform := "linux", home := "/home/u", sysPrefixDir := "/py",
    vars := fun _ => none,
    fs := fun p => p == "/home/u/.config/findlibs/findlibs.conf" || p == "/home/u/.findlibs",
    isDir := fun _ => false,
    listdir := fun _ => [],
    importable := fun _ => none,
    findLibrary := fun _ => none,
    readConfig := fun _ => none }

/-- Environment for the C3 witness, relative-entry case: one config file
whose `Paths` section holds the entry `relative/path`. -/
def envCfgRel : Env :=
  { platform := "linux", home := "/home/u", sysPrefixDir := "/py",
    vars := fun _ => none,
    fs := fun p => p == "/home/u/.config/findlibs/findlibs.conf",
    isDir := fun _ => false,
    listdir := fun _ => [],
    importable := fun _ => none,
    findLibrary := fun _ => none,
    readConfig := fun loc =>
      if loc = "/home/u/.config/findlibs/findlibs.conf" then some ["relative/path"] else none }

/-- C3: the config loader raises when both candidate config files exist;
raises when some `Paths` entry is not absolute after `$HOME` substitution
and `~` expansion; raises when every entry is absolute but some entry is not
a directory; and returns the empty path set without error when no config
file exists, when the `Paths` section is absent, and when it is empty. -/
theorem config_loader_validation :
    (∀ env : Env,
      env.fs (expanduser env.home "~/.config/findlibs/findlibs.conf") = true →
      env.fs (expanduser env.home "~/.findlibs") = true →
      ∃ e, getPathsFromConfig env = .error e) ∧
    (∀ (env : Env) (loc : String) (keys : List String) (p : String),
      configLocations env = [loc] →
      env.readConfig loc = some keys →
      p ∈ keys →
      isAbsolute (expanduser env.home (replaceHome p)) = false →
      ∃ e, getPathsFromConfig env = .error e) ∧
    (∀ (env : Env) (loc : String) (keys : List String) (p : String),
      configLocations env = [loc] →
      env.readConfig loc = some keys →
      p ∈ keys →
      (∀ q ∈ keys, isAbsolute (expanduser env.home (replaceHome q)) = true) →
      env.isDir (expanduser env.home (replaceHome p)) = false →
      ∃ e, getPathsFromConfig env = .error e) ∧
    (∀ env : Env, configLocations env = [] → getPathsFromConfig env = .ok []) ∧
    (∀ (env : Env) (loc : String), configLocations env = [loc] →
      env.readConfig loc = none → getPathsFromConfig env = .ok []) ∧
    (∀ (env : Env) (loc : String), configLocations env = [loc] →
      env.readConfig loc = some [] → getPathsFromConfig env = .ok []) := by
  refine ⟨?_, ?_, ?_, ?_, ?_, ?_⟩
  · intro env h1 h2
    have hloc : configLocations env =
        [expanduser env.home "~/.config/findlibs/findlibs.conf",
         expanduser env.home "~/.findlibs"] := by
      simp [configLocations, List.filter, h1, h2]
    refine ⟨"There are multiple config files! Delete all but one", ?_⟩
    rw [getPathsFromConfig, hloc]
  · intro env loc keys p hloc hread hp habs
    refine ⟨"Dont use relative paths in the config file", ?_⟩
    rw [getPathsFromConfig, hloc]
    show (match env.readConfig loc with
      | none => Except.ok []
      | some keys =>
        let paths := (keys.map (fun p => expanduser env.home (replaceHome p))).dedup
        let relPaths := paths.filter (fun p => !(isAbsolute p))
        if !relPaths.isEmpty then
          Except.error "Dont use relative paths in the config file"
        else
          let files := paths.filter (fun p => !(env.isDir p))
          if !files.isEmpty then
            Except.error "Dont put files in the config file"
          else
            Except.ok paths) = _
    rw [hread]
    have hmem : expanduser env.home (replaceHome p) ∈
        ((keys.map (fun q => expanduser env.home (replaceHome q))).dedup.filter
          (fun q => !(isAbsolute q))) := by
      rw [List.mem_filter]
      exact ⟨List.mem_dedup.2 (List.mem_map_of_mem _ hp), by simp [habs]⟩
    have hne : ((keys.map (fun q => expanduser env.home (replaceHome q))).dedup.filter
        (fun q => !(isAbsolute q))).isEmpty = false := by
      rcases List.isEmpty_iff.mp.mt (List.ne_nil_of_mem hmem) with h
      cases hE : ((keys.map (fun q => expanduser env.home (replaceHome q))).dedup.filter
          (fun q => !(isAbsolute q))).isEmpty
      · rfl
      · exact absurd (List.isEmpty_iff.mp hE) (List.ne_nil_of_mem hmem)
    simp only [hne, Bool.not_false, if_true]
  · intro env loc keys p hloc hread hp hall hdir
    refine ⟨"Dont put files in the config file", ?_⟩
    rw [getPathsFromConfig, hloc]
    show (match env.readConfig loc with
      | none => Except.ok []
      | some keys =>
        let paths := (keys.map (fun p => expanduser env.home (replaceHome p))).dedup
        let relPaths := paths.filter (fun p => !(isAbsolute p))
        if !relPaths.isEmpty then
          Except.error "Dont use relative paths in the config file"
        else
          let files := paths.filter (fun p => !(env.isDir p))
          if !files.isEmpty then
            Except.error "Dont put files in the config file"
          else
            Except.ok paths) = _
    rw [hread]
    have habs : ∀ q ∈ (keys.map (fun q => expanduser env.home (replaceHome q))).dedup,
        isAbsolute q = true := by
      intro q hq
      rcases List.mem_map.1 (List.mem_dedup.1 hq) with ⟨x, hx, rfl⟩
      exact hall x hx
    have hrel : ((keys.map (fun q => expanduser env.home (replaceHome q))).dedup.filter
        (fun q => !(isAbsolute q))) = [] := by
      rw [List.filter_eq_nil_iff]
      intro q hq
      simp [habs q hq]
    have hfile : expanduser env.home (replaceHome p) ∈
        ((keys.map (fun q => expanduser env.home (replaceHome q))).dedup.filter
          (fun q => !(env.isDir q))) := by
      rw [List.mem_filter]
      exact ⟨List.mem_dedup.2 (List.mem_map_of_mem _ hp), by simp [hdir]⟩
    have hne : ((keys.map (fun q => expanduser env.home (replaceHome q))).dedup.filter
        (fun q => !(env.isDir q))).isEmpty = false := by
      cases hE : ((keys.map (fun q => expanduser env.home (replaceHome q))).dedup.filter
          (fun q => !(env.isDir q))).isEmpty
      · rfl
      · exact absurd (List.isEmpty_iff.mp hE) (List.ne_nil_of_mem hfile)
    simp only [hrel, List.isEmpty_nil, Bool.not_true, if_false, hne, Bool.not_false, if_true]
    rfl
  · intro env hloc
    rw [getPathsFromConfig, hloc]
  · intro env loc hloc hread
    rw [getPathsFromConfig, hloc]
    show (match env.readConfig loc with
      | none => Except.ok []
      | some keys =>
        let paths := (keys.map (fun p => expanduser env.home (replaceHome p))).dedup
        let relPaths := paths.filter (fun p => !(isAbsolute p))
        if !relPaths.isEmpty then
          Except.error "Dont use relative paths in the config file"
        else
          let files := paths.filter (fun p => !(env.isDir p))
          if !files.isEmpty then
            Except.error "Dont put files in the config file"
          else
            Except.ok paths) = _
    rw [hread]
  · intro env loc hloc hread
    rw [getPathsFromConfig, hloc]
    show (match env.readConfig loc with
      | none => Except.ok []
      | some keys =>
        let paths := (keys.map (fun p => expanduser env.home (replaceHome p))).dedup
        let relPaths := paths.filter (fun p => !(isAbsolute p))
        if !relPaths.isEmpty then
          Except.error "Dont use relative paths in the config file"
        else
          let files := paths.filter (fun p => !(env.isDir p))
          if !files.isEmpty then
            Except.error "Dont put files in the config file"
          else
            Except.ok paths) = _
    rw [hread]
    simp

/-- Witness for C3: with both config files present the loader raises; with a
single config file whose `Paths` section holds `relative/path` it raises. -/
theorem config_loader_validation_witness :
    (∃ e, getPathsFromConfig envCfgBoth = .error e) ∧
    (∃ e, getPathsFromConfig envCfgRel = .error e) :=
  ⟨config_loader_validation.1 envCfgBoth (by decide) (by decide),
   config_loader_validation.2.1 envCfgRel "/home/u/.config/findlibs/findlibs.conf"
     ["relative/path"] "relative/path" (by decide) (by decide) (by decide) (by decide)⟩

/-! ## C5: the transitive preload has no visited set and diverges on a cycle -/

/-- A module `modA` declaring `modB` as a findlibs dependency. -/
def modCycA : PyModule := ⟨"/A", some ["modB"]⟩

/-- A module `modB` declaring `modA` back, closing the cycle. -/
def modCycB : PyModule := ⟨"/B", some ["modA"]⟩

/-- Environment with the two-module dependency cycle `modA ↔ modB`; both
modules import fine. -/
def envCyc : Env :=
  { platform := "linux", home := "/home/u", sysPrefixDir := "/py",
    vars := fun _ => none,
    fs := fun _ => false,
    isDir := fun _ => false,
    listdir := fun _ => [],
    importable := fun n =>
      if n = "modA" then some modCycA else if n = "modB" then some modCycB else none,
    findLibrary := fun _ => none,
    readConfig := fun _ => none }

/-- C5 (refuting the claimed invariant): on the cyclic declaration
`modA ↔ modB` the transitive preload never terminates — it returns `none`
(out of fuel) for every fuel bound, because the source keeps re-expanding
the two modules with no visited set.  In Python this is an unbounded
recursion ending in `RecursionError`. -/
theorem preload_cycle_never_terminates :
    ∀ fuel : Nat,
      transitivePreloadDeps envCyc fuel modCycA = none ∧
      transitivePreloadDeps envCyc fuel modCycB = none := by
  intro fuel
  induction fuel with
  | zero => exact ⟨rfl, rfl⟩
  | succ f ih =>
    have hB : envCyc.importable "modB" = some modCycB := rfl
    have hA : envCyc.importable "modA" = some modCycA := rfl
    constructor
    · show preloadListAux envCyc (transitivePreloadDeps envCyc f) ["modB"] = none
      simp only [preloadListAux, hB, ih.2]
    · show preloadListAux envCyc (transitivePreloadDeps envCyc f) ["modA"] = none
      simp only [preloadListAux, hA, ih.1]

/-! ## C6: dependency-first ordering of the preloader -/

theorem preloadListAux_dep_loads_sub (env : Env) (rec : PyModule → Option (List String)) :
    ∀ (names : List String) (tr : List String) (b : String) (depm : PyModule),
      preloadListAux env rec names = some tr → b ∈ names →
      env.importable b = some depm →
      ∀ f ∈ moduleLibLoads env depm, f ∈ tr := by
  intro names
  induction names with
  | nil => intro tr b depm _ hb; exact absurd hb (List.not_mem_nil b)
  | cons n rest ih =>
    intro tr b depm hres hb hB f hf
    rcases List.mem_cons.1 hb with hbn | hbr
    · subst hbn
      cases hrec : rec depm with
      | none =>
        simp only [preloadListAux, hB, hrec] at hres
        exact Option.noConfusion hres
      | some dtr =>
        cases hrest : preloadListAux env rec rest with
        | none =>
          simp only [preloadListAux, hB, hrec, hrest] at hres
          exact Option.noConfusion hres
        | some rtr =>
          simp only [preloadListAux, hB, hrec, hrest, Option.some.injEq] at hres
          subst hres
          exact List.mem_append.2 (Or.inl (List.mem_append.2 (Or.inr hf)))
    · cases himp : env.importable n with
      | none =>
        simp only [preloadListAux, himp] at hres
        exact ih tr b depm hres hbr hB f hf
      | some dep =>
        cases hrec : rec dep with
        | none =>
          simp only [preloadListAux, himp, hrec] at hres
          exact Option.noConfusion hres
        | some dtr =>
          cases hrest : preloadListAux env rec rest with
          | none =>
            simp only [preloadListAux, himp, hrec, hrest] at hres
            exact Option.noConfusion hres
          | some rtr =>
            simp only [preloadListAux, himp, hrec, hrest, Option.some.injEq] at hres
            subst hres
            exact List.mem_append.2 (Or.inr (ih rtr b depm hrest hbr hB f hf))

theorem transitivePreloadDeps_dep_loads_sub (env : Env) (fuel : Nat) (m depm : PyModule)
    (names : List String) (b : String) (tr : List String)
    (hTr : transitivePreloadDeps env fuel m = some tr)
    (hdeps : m.deps = some names) (hb : b ∈ names)
    (hB : env.importable b = some depm) :
    ∀ f ∈ moduleLibLoads env depm, f ∈ tr := by
  cases fuel with
  | zero => simp [transitivePreloadDeps] at hTr
  | succ f =>
    simp only [transitivePreloadDeps, hdeps] at hTr
    exact preloadListAux_dep_loads_sub env (transitivePreloadDeps env f) names tr b depm
      hTr hb hB

theorem findLoop_trace_of_tracefree (env : Env) (fuel : Nat) (fn pn : String) :
    ∀ (L : List Source),
      (∀ s ∈ L, ∀ (r : Option String) (t : List String),
        runSource env fuel s fn pn = .ok r t → t = []) →
      ∀ (acc : List String) (r : Option String) (T : List String),
        findLoop env fuel fn pn L acc = .ok r T → T = acc := by
  intro L
  induction L with
  | nil =>
    intro _ acc r T h
    cases h; rfl
  | cons s rest ih =>
    intro hpure acc r T h
    cases hrs : runSource env fuel s fn pn with
    | div =>
      simp only [findLoop, hrs] at h
      exact StratRes.noConfusion h
    | err e =>
      simp only [findLoop, hrs] at h
      exact StratRes.noConfusion h
    | ok r0 t0 =>
      have ht0 : t0 = [] := hpure s (List.mem_cons_self s rest) r0 t0 hrs
      subst ht0
      simp only [findLoop, hrs] at h
      by_cases htru : truthy r0 = true
      · rw [if_pos htru] at h
        cases h
        exact List.append_nil acc
      · rw [if_neg htru] at h
        have := ih (fun t ht => hpure t (List.mem_cons_of_mem s ht)) (acc ++ []) r T h
        rwa [List.append_nil] at this

theorem runSource_nonpackage_tracefree (env : Env) (fuel : Nat) (fn pn : String) :
    ∀ s : Source, s ≠ .PACKAGE →
      ∀ (r : Option String) (t : List String),
        runSource env fuel s fn pn = .ok r t → t = [] := by
  intro s hs r t h
  cases s with
  | PACKAGE => exact absurd rfl hs
  | CONFIG_PATHS =>
    cases hc : getPathsFromConfig env with
    | error e =>
      simp only [runSource, hc] at h
      exact StratRes.noConfusion h
    | ok roots =>
      simp only [runSource, hc, StratRes.ok.injEq] at h
      exact h.2.symm
  | PYTHON => cases h; rfl
  | HOME => cases h; rfl
  | LD_PATH => cases h; rfl
  | SYS => cases h; rfl
  | CTYPES_UTIL => cases h; rfl

theorem enabledSources_package_cons (env : Env)
    (hen : sourceEnabled env .PACKAGE = true) :
    enabledSources env = .PACKAGE ::
      ([.PYTHON, .HOME, .CONFIG_PATHS, .LD_PATH, .SYS, .CTYPES_UTIL].filter
        (sourceEnabled env)) := by
  simp [enabledSources, sourcesOrder, List.filter, hen]

theorem mem_tail_filter_ne_package (env : Env) (s : Source)
    (hs : s ∈ ([.PYTHON, .HOME, .CONFIG_PATHS, .LD_PATH, .SYS, .CTYPES_UTIL].filter
      (sourceEnabled env))) : s ≠ .PACKAGE := by
  intro heq
  subst heq
  have hmem := (List.mem_filter.1 hs).1
  simp at hmem

theorem preloadListAux_dep_decomp (env : Env) (rec : PyModule → Option (List String)) :
    ∀ (names : List String) (tr : List String) (b : String) (depm : PyModule),
      preloadListAux env rec names = some tr → b ∈ names →
      env.importable b = some depm →
      ∃ pre dtr rtr, rec depm = some dtr ∧
        tr = pre ++ (dtr ++ moduleLibLoads env depm ++ rtr) := by
  intro names
  induction names with
  | nil => intro tr b depm _ hb; exact absurd hb (List.not_mem_nil b)
  | cons n rest ih =>
    intro tr b depm hres hb hB
    rcases List.mem_cons.1 hb with hbn | hbr
    · subst hbn
      cases hrec : rec depm with
      | none =>
        simp only [preloadListAux, hB, hrec] at hres
        exact Option.noConfusion hres
      | some dtr =>
        cases hrest : preloadListAux env rec rest with
        | none =>
          simp only [preloadListAux, hB, hrec, hrest] at hres
          exact Option.noConfusion hres
        | some rtr =>
          simp only [preloadListAux, hB, hrec, hrest, Option.some.injEq] at hres
          subst hres
          exact ⟨[], dtr, rtr, rfl, by simp⟩
    · cases himp : env.importable n with
      | none =>
        simp only [preloadListAux, himp] at hres
        exact ih tr b depm hres hbr hB
      | some dep =>
        cases hrec : rec dep with
        | none =>
          simp only [preloadListAux, himp, hrec] at hres
          exact Option.noConfusion hres
        | some dtr0 =>
          cases hrest : preloadListAux env rec rest with
          | none =>
            simp only [preloadListAux, himp, hrec, hrest] at hres
            exact Option.noConfusion hres
          | some rtr0 =>
            simp only [preloadListAux, himp, hrec, hrest, Option.some.injEq] at hres
            subst hres
            obtain ⟨pre, dtr, rtr, h1, h2⟩ := ih rtr0 b depm hrest hbr hB
            exact ⟨dtr0 ++ moduleLibLoads env dep ++ pre, dtr, rtr, h1, by
              rw [h2]; simp [List.append_assoc]⟩

theorem transitivePreloadDeps_dep_decomp (env : Env) (fuel : Nat) (m depm : PyModule)
    (names : List String) (b : String) (tr : List String)
    (hTr : transitivePreloadDeps env fuel m = some tr)
    (hdeps : m.deps = some names) (hb : b ∈ names)
    (hB : env.importable b = some depm) :
    ∃ fp, fuel = fp + 1 ∧
      ∃ pre dtr rtr, transitivePreloadDeps env fp depm = some dtr ∧
        tr = pre ++ (dtr ++ moduleLibLoads env depm ++ rtr) := by
  cases fuel with
  | zero => simp [transitivePreloadDeps] at hTr
  | succ f =>
    simp only [transitivePreloadDeps, hdeps] at hTr
    exact ⟨f, rfl,
      preloadListAux_dep_decomp env (transitivePreloadDeps env f) names tr b depm hTr hb hB⟩

theorem find_trace_of_package_preload (env : Env) (fuel : Nat) (lib : String)
    (pkg : Option String) (m : PyModule) (tr : List String)
    (hen : sourceEnabled env .PACKAGE = true)
    (hplat : env.platform ≠ "darwin")
    (hImp : env.importable (pyStrOr pkg (lib ++ "lib")) = some m)
    (hTr : transitivePreloadDeps env fuel m = some tr) :
    ∀ (r : Option String) (T : List String),
      find env fuel lib pkg = .ok r T → T = tr := by
  intro r T hfind
  have hrs : runSource env fuel .PACKAGE (libFileName env lib) (pyStrOr pkg (lib ++ "lib")) =
      .ok (firstExisting env (packageCandidates m (libFileName env lib))) tr := by
    show findInPackageRes env fuel (libFileName env lib) (pyStrOr pkg (lib ++ "lib")) = _
    simp only [findInPackageRes, hImp]
    rw [if_neg hplat]
    simp only [hTr]
  rw [find, enabledSources_package_cons env hen] at hfind
  simp only [findLoop, hrs] at hfind
  by_cases htru : truthy (firstExisting env (packageCandidates m (libFileName env lib))) = true
  · rw [if_pos htru] at hfind
    simp only [StratRes.ok.injEq, List.nil_append] at hfind
    exact hfind.2.symm
  · rw [if_neg htru] at hfind
    have := findLoop_trace_of_tracefree env fuel (libFileName env lib)
      (pyStrOr pkg (lib ++ "lib"))
      ([.PYTHON, .HOME, .CONFIG_PATHS, .LD_PATH, .SYS, .CTYPES_UTIL].filter
        (sourceEnabled env))
      (fun s hs => runSource_nonpackage_tracefree env fuel (libFileName env lib)
        (pyStrOr pkg (lib ++ "lib")) s (mem_tail_filter_ne_package env s hs))
      ([] ++ tr) r T hfind
    simpa using this

/-- C6: when a module `m` (resolved for the requested package) declares the
dependency `b` resolving to module `depm`, and the transitive preload
terminates with trace `tr`, then every shared object found in `depm`'s
`lib`/`lib64` directories is in `tr`; within `tr`, the dependency's own
recursive preload trace `dtr` comes immediately before the dependency's own
`lib`/`lib64` loads (depth-first, dependency-first); and whenever `find` succeeds with
result `r`, its whole side-effect trace is exactly `tr` and `load` performs
the loads `tr ++ [r]` — so all of the dependency's shared objects are
globally loaded strictly before the dependent's own shared object. -/
theorem preload_runs_dependency_before_dependent
    (env : Env) (fuel : Nat) (lib : String) (pkg : Option String)
    (m depm : PyModule) (names : List String) (b : String) (tr : List String)
    (hen : sourceEnabled env .PACKAGE = true)
    (hplat : env.platform ≠ "darwin")
    (hImp : env.importable (pyStrOr pkg (lib ++ "lib")) = some m)
    (hdeps : m.deps = some names)
    (hb : b ∈ names)
    (hB : env.importable b = some depm)
    (hTr : transitivePreloadDeps env fuel m = some tr) :
    (∀ f ∈ moduleLibLoads env depm, f ∈ tr) ∧
    (∃ fp, fuel = fp + 1 ∧
      ∃ pre dtr rtr, transitivePreloadDeps env fp depm = some dtr ∧
        tr = pre ++ (dtr ++ moduleLibLoads env depm ++ rtr)) ∧
    (∀ (r : String) (T : List String), find env fuel lib pkg = .ok (some r) T →
      T = tr ∧ load env fuel lib pkg = .ok (tr ++ [r])) := by
  refine ⟨?_, ?_, ?_⟩
  · exact transitivePreloadDeps_dep_loads_sub env fuel m depm names b tr hTr hdeps hb hB
  · exact transitivePreloadDeps_dep_decomp env fuel m depm names b tr hTr hdeps hb hB
  · intro r T hfind
    have hT : T = tr :=
      find_trace_of_package_preload env fuel lib pkg m tr hen hplat hImp hTr (some r) T hfind
    subst hT
    refine ⟨rfl, ?_⟩
    simp only [load, hfind]

/-- The wheel-style package module of the C6/C7 witnesses: `modAlib`
installed at `/A`, declaring `modBlib` as findlibs dependency. -/
def modApkg : PyModule := ⟨"/A", some ["modBlib"]⟩

/-- Its dependency module `modBlib`, installed at `/B`, no own declared
dependencies. -/
def modBpkg : PyModule := ⟨"/B", none⟩

/-- Environment for C6/C7: `modAlib` holds `/A/lib64/libmodA.so`, its
declared dependency `modBlib` holds `/B/lib64/libmodB.so`. -/
def envDep : Env :=
  { platform := "linux", home := "/home/u", sysPrefixDir := "/py",
    vars := fun _ => none,
    fs := fun p => p == "/B/lib64" || p == "/A/lib64/libmodA.so",
    isDir := fun _ => false,
    listdir := fun p => if p = "/B/lib64" then ["libmodB.so"] else [],
    importable := fun n =>
      if n = "modAlib" then some modApkg
      else if n = "modBlib" then some modBpkg
      else none,
    findLibrary := fun _ => none,
    readConfig := fun _ => none }

/-- Witness for C6: `load("modA")` in `envDep` globally loads the dependency
object `/B/lib64/libmodB.so` strictly before `modAlib`'s own object
`/A/lib64/libmodA.so`. -/
theorem preload_runs_dependency_before_dependent_witness :
    load envDep 2 "modA" none = .ok ["/B/lib64/libmodB.so", "/A/lib64/libmodA.so"] := by
  have h := (preload_runs_dependency_before_dependent envDep 2 "modA" none
    modApkg modBpkg ["modBlib"] "modBlib" ["/B/lib64/libmodB.so"]
    (by decide) (by decide) (by decide) (by decide) (by decide) (by decide) (by decide)).2.2
    "/A/lib64/libmodA.so" ["/B/lib64/libmodB.so"] (by decide)
  exact h.2

/-! ## C7: which calls perform global-load side effects -/

/-- Counterexample to C7 as stated: a plain `find` call (no `load`) already
performs a global load — its side-effect trace contains
`/B/lib64/libmodB.so`, loaded while the PACKAGE strategy resolved the
package with preloading enabled (the non-darwin default). -/
theorem find_triggers_global_loads_cex :
    find envDep 2 "modA" none = .ok (some "/A/lib64/libmodA.so") ["/B/lib64/libmodB.so"] ∧
    (["/B/lib64/libmodB.so"] : List String) ≠ [] :=
  ⟨by decide, by decide⟩

theorem runSource_tracefree_of_no_preload (env : Env) (fuel : Nat) (fn pn : String)
    (hcond : env.platform = "darwin" ∨ env.importable pn = none) :
    ∀ (s : Source) (r : Option String) (t : List String),
      runSource env fuel s fn pn = .ok r t → t = [] := by
  intro s r t h
  by_cases hsp : s = Source.PACKAGE
  · subst hsp
    cases himpc : env.importable pn with
    | none =>
      simp only [runSource, findInPackageRes, himpc, StratRes.ok.injEq] at h
      exact h.2.symm
    | some m =>
      rcases hcond with hdar | himp
      · simp only [runSource, findInPackageRes, himpc] at h
        rw [if_pos hdar] at h
        simp only [StratRes.ok.injEq] at h
        exact h.2.symm
      · exact absurd (himpc ▸ himp) (by simp)
  · exact runSource_nonpackage_tracefree env fuel fn pn s hsp r t h

/-- C7 (amended): a plain `find` call performs no global loads exactly when
the PACKAGE strategy does not preload — because PACKAGE is disabled, or the
platform is darwin (preloading off by default there), or the package is not
importable.  When PACKAGE is enabled, the package imports and the platform
is not darwin, `find` itself already performs the preloader's global loads
`tr`; `load` merely appends the final load of the resolved path. -/
theorem find_preload_effect_characterization :
    (∀ (env : Env) (fuel : Nat) (lib : String) (pkg : Option String) (r : Option String)
      (T : List String),
      Source.PACKAGE ∉ enabledSources env →
      find env fuel lib pkg = .ok r T → T = []) ∧
    (∀ (env : Env) (fuel : Nat) (lib : String) (pkg : Option String) (r : Option String)
      (T : List String),
      (env.platform = "darwin" ∨ env.importable (pyStrOr pkg (lib ++ "lib")) = none) →
      find env fuel lib pkg = .ok r T → T = []) ∧
    (∀ (env : Env) (fuel : Nat) (lib : String) (pkg : Option String) (m : PyModule)
      (tr : List String),
      sourceEnabled env .PACKAGE = true →
      env.platform ≠ "darwin" →
      env.importable (pyStrOr pkg (lib ++ "lib")) = some m →
      transitivePreloadDeps env fuel m = some tr →
      (∀ (r : Option String) (T : List String),
        find env fuel lib pkg = .ok r T → T = tr) ∧
      (∀ (p : String) (T : List String),
        find env fuel lib pkg = .ok (some p) T →
        load env fuel lib pkg = .ok (T ++ [p]))) := by
  refine ⟨?_, ?_, ?_⟩
  · intro env fuel lib pkg r T hni hfind
    rw [find] at hfind
    exact findLoop_trace_of_tracefree env fuel (libFileName env lib)
      (pyStrOr pkg (lib ++ "lib")) (enabledSources env)
      (fun s hs => runSource_nonpackage_tracefree env fuel (libFileName env lib)
        (pyStrOr pkg (lib ++ "lib")) s (fun he => hni (he ▸ hs)))
      [] r T hfind
  · intro env fuel lib pkg r T hcond hfind
    rw [find] at hfind
    exact findLoop_trace_of_tracefree env fuel (libFileName env lib)
      (pyStrOr pkg (lib ++ "lib")) (enabledSources env)
      (fun s _ => runSource_tracefree_of_no_preload env fuel (libFileName env lib)
        (pyStrOr pkg (lib ++ "lib")) hcond s)
      [] r T hfind
  · intro env fuel lib pkg m tr hen hplat hImp hTr
    refine ⟨find_trace_of_package_preload env fuel lib pkg m tr hen hplat hImp hTr, ?_⟩
    intro p T hfind
    simp only [load, hfind]

/-- Witness for C7 (amended): in `envDep` the preload loads happen during
`find` and `load` appends the resolved path; in `envSys` (package not
importable) `find`'s trace is empty. -/
theorem find_preload_effect_characterization_witness :
    load envDep 2 "modA" none = .ok (["/B/lib64/libmodB.so"] ++ ["/A/lib64/libmodA.so"]) ∧
    ([] : List String) = [] :=
  ⟨(find_preload_effect_characterization.2.2 envDep 2 "modA" none modApkg
      ["/B/lib64/libmodB.so"] (by decide) (by decide) (by decide) (by decide)).2
      "/A/lib64/libmodA.so" ["/B/lib64/libmodB.so"] (by decide),
   find_preload_effect_characterization.2.1 envSys 1 "foo" none
      (some "/usr/lib/libfoo.so") [] (Or.inr (by decide)) (by decide)⟩

/-! ## C8: existence of returned paths -/

theorem findInHomeAux_fs (env : Env) (fn : String) :
    ∀ (L : List String) (r : String),
      findInHomeAux env fn L = some r → env.fs r = true := by
  intro L
  induction L with
  | nil => intro r h; exact Option.noConfusion h
  | cons e rest ih =>
    intro r h
    cases hv : env.vars e with
    | none =>
      simp only [findInHomeAux, hv] at h
      exact ih r h
    | some v =>
      cases hp : homeProbe env fn (expanduser env.home v) with
      | none =>
        simp only [findInHomeAux, hv, hp] at h
        exact ih r h
      | some x =>
        simp only [findInHomeAux, hv, hp, Option.some.injEq] at h
        subst h
        exact List.find?_some hp

/-- Environment for the C8 counterexample: an empty filesystem, but the
platform cache answers `libm.so.6` for `libm.so`. -/
def envBare : Env :=
  { platform := "linux", home := "/home/u", sysPrefixDir := "/py",
    vars := fun _ => none,
    fs := fun _ => false,
    isDir := fun _ => false,
    listdir := fun _ => [],
    importable := fun _ => none,
    findLibrary := fun n => if n = "libm.so" then some "libm.so.6" else none,
    readConfig := fun _ => none }

/-- Counterexample to C8 as stated: `find` returns the CTYPES_UTIL answer
`libm.so.6` although no path of that name exists on the (modelled)
filesystem — the seventh strategy performs no existence check on the value
`ctypes.util.find_library` hands back. -/
theorem ctypes_result_unchecked_cex :
    find envBare 1 "m" none = .ok (some "libm.so.6") [] ∧
    envBare.fs "libm.so.6" = false :=
  ⟨by decide, by decide⟩

/-- C8 (amended): every path returned by the six filesystem-probing
strategies (PACKAGE, PYTHON, HOME, CONFIG_PATHS, LD_PATH, SYS) exists on the
filesystem at the moment the strategy checks it; only CTYPES_UTIL returns
its platform-cache answer unchecked. -/
theorem strategies_return_existing_paths_except_ctypes :
    ∀ (env : Env) (fuel : Nat) (s : Source) (fn pn r : String) (tr : List String),
      s ≠ .CTYPES_UTIL →
      runSource env fuel s fn pn = .ok (some r) tr →
      env.fs r = true := by
  intro env fuel s fn pn r tr hs h
  cases s with
  | PACKAGE =>
    cases himp : env.importable pn with
    | none =>
      simp only [runSource, findInPackageRes, himp, StratRes.ok.injEq] at h
      exact Option.noConfusion h.1
    | some m =>
      by_cases hdar : env.platform = "darwin"
      · simp only [runSource, findInPackageRes, himp] at h
        rw [if_pos hdar] at h
        simp only [StratRes.ok.injEq] at h
        exact List.find?_some h.1
      · cases htp : transitivePreloadDeps env fuel m with
        | none =>
          simp only [runSource, findInPackageRes, himp] at h
          rw [if_neg hdar] at h
          simp only [htp] at h
          exact StratRes.noConfusion h
        | some tr' =>
          simp only [runSource, findInPackageRes, himp] at h
          rw [if_neg hdar] at h
          simp only [htp, StratRes.ok.injEq] at h
          exact List.find?_some h.1
  | PYTHON =>
    simp only [runSource, StratRes.ok.injEq] at h
    exact List.find?_some h.1
  | HOME =>
    simp only [runSource, StratRes.ok.injEq] at h
    exact findInHomeAux_fs env fn (homeEnvCandidates pn) r h.1
  | CONFIG_PATHS =>
    cases hc : getPathsFromConfig env with
    | error e =>
      simp only [runSource, hc] at h
      exact StratRes.noConfusion h
    | ok roots =>
      simp only [runSource, hc, StratRes.ok.injEq] at h
      exact List.find?_some h.1
  | LD_PATH =>
    simp only [runSource, StratRes.ok.injEq] at h
    exact List.find?_some h.1
  | SYS =>
    simp only [runSource, StratRes.ok.injEq] at h
    exact List.find?_some h.1
  | CTYPES_UTIL => exact absurd rfl hs

/-- Witness for C8 (amended): the SYS strategy's hit `/usr/lib/libfoo.so`
in `envSys` exists on that environment's filesystem. -/
theorem strategies_return_existing_paths_except_ctypes_witness :
    envSys.fs "/usr/lib/libfoo.so" = true :=
  strategies_return_existing_paths_except_ctypes envSys 1 .SYS "libfoo.so" "foolib"
    "/usr/lib/libfoo.so" [] (by decide) (by decide)

/-- Environment for the C10 witness: no variables set at all, and a file
named `libx.so` reachable at the bare relative name (i.e. in the process's
current working directory). -/
def envCwd : Env :=
  { platform := "linux", home := "/home/u", sysPrefixDir := "/py",
    vars := fun _ => none,
    fs := fun p => p == "libx.so",
    isDir := fun _ => false,
    listdir := fun _ => [],
    importable := fun _ => none,
    findLibrary := fun _ => none,
    readConfig := fun _ => none }

/-- Witness for C10: with both linker-path variables unset, `libx.so` in the
current working directory is found by the LD_PATH strategy and returned as
the relative name `libx.so`. -/
theorem ld_path_probes_empty_segment_witness :
    findInLdPath envCwd (libFileName envCwd "x") "xlib" = some (libFileName envCwd "x") ∧
    isAbsolute (libFileName envCwd "x") = false :=
  ld_path_probes_empty_segment envCwd "x" "xlib" (by decide) (by decide) (by decide)
